import Mathlib

/-!
# Monitoring-protocol message codec (`src/monitor/include/Message.h`)

A shallow embedding of `Message<E>::parse_from` and the three `Message<E>::write_to`
overloads, together with the part of `std::istringstream` they rely on
(`operator>>(std::string&)`, `std::ws`, `good()`).

* `std::string` is a list of bytes (`Bytes`); it may hold NUL bytes.
* Functions returning `int` return `Int` (`0` success, `-1` failure).
* The functions that `Message.h` only declares (`base64_decode`, `base64_encode`,
  `zlib_decompress`, `zlib_compress`) and the `EString<E>` table (`_from_str`, `_to_str`,
  from `EnumString.h`) are parameters, gathered in `Env`. A C++ parameter `std::string& out`
  is passed as the value before the call and returned as the value after the call.
* The parameter `const std::string& input` of `parse_from` is a reference: it is an `Input`,
  either a string of the caller's or the message's own `_payload`.
-/

set_option maxRecDepth 8000

namespace Monitor

/-- One `char` of a `std::string`. -/
abbrev Byte := Fin 256

/-- A `std::string`: a sequence of bytes of any value. -/
abbrev Bytes := List Byte

/-- The space character, written by `out += ' '`. -/
def SP : Byte := 32

/-- The newline character, written by `out += '\n'`. -/
def NL : Byte := 10

/-- The test `std::isspace` in the classic "C" locale, the locale of a default-constructed stream:
    horizontal tab, line feed, vertical tab, form feed, carriage return and space. -/
def isspace (c : Byte) : Bool :=
  c.val == 9 || c.val == 10 || c.val == 11 || c.val == 12 || c.val == 13 || c.val == 32

/-- The characters seen through `std::string::c_str()` by a reader of a C string:
    those before the first NUL byte. -/
def c_str (s : Bytes) : Bytes :=
  s.takeWhile (fun c => c.val != 0)

/-! ## The input stream -/

/-- The state of the `std::istringstream`: the characters not yet read and the two state
    bits that reading from a string can set. -/
structure IStream where
  rest : Bytes
  eofbit : Bool
  failbit : Bool
deriving DecidableEq, Repr

/-- The stream built by `std::istringstream is(input)`. -/
def IStream.ofString (input : Bytes) : IStream :=
  { rest := input, eofbit := false, failbit := false }

/-- The test `is.good()`: no state bit is set. -/
def IStream.good (s : IStream) : Bool :=
  !s.eofbit && !s.failbit

/-- The extraction `is >> str` for a `std::string` (`width()` is 0). The sentry fails, setting `failbit`
    and leaving `str` alone, when the stream is not good; otherwise it skips leading
    whitespace and fails with `eofbit | failbit` when that reaches the end. After the
    sentry, `str` is erased and characters are appended up to the next whitespace
    character or the end of the stream; reaching the end sets `eofbit`, extracting no
    character sets `failbit`. -/
def IStream.extract (s : IStream) (str : Bytes) : IStream × Bytes :=
  if !s.good then
    ({ s with failbit := true }, str)
  else
    match s.rest.dropWhile isspace with
    | [] => ({ rest := [], eofbit := true, failbit := true }, str)
    | c :: cs =>
      let tok := (c :: cs).takeWhile (fun b => !isspace b)
      let rest := (c :: cs).dropWhile (fun b => !isspace b)
      ({ rest := rest, eofbit := rest.isEmpty, failbit := tok.isEmpty }, tok)

/-- The manipulator call `is >> std::ws`. The sentry (built without whitespace skipping) fails, setting
    `failbit`, when the stream is not good; otherwise whitespace is discarded, and
    `eofbit` is set when the end of the stream is reached. -/
def IStream.ws (s : IStream) : IStream :=
  if !s.good then
    { s with failbit := true }
  else
    let rest := s.rest.dropWhile isspace
    { rest := rest, eofbit := rest.isEmpty, failbit := false }

/-! ## The message and its collaborators -/

/-- The fields of `Message<E>`. -/
structure Message (E : Type) where
  _type : E
  _payload : Bytes
deriving DecidableEq, Repr

/-- What `Message.h` uses and does not define: the reserved enumerator `E::UNDEFINED`, the
    `EString<E>` table `_type_str`, and the four free functions declared at the top of the
    header. `base64_encode`, `zlib_decompress` and `zlib_compress` return their `int`
    result and the content of `out` after the call; `base64_decode` returns `void`, so
    only the content of `out`. The second argument is the content of `out` before the
    call. `_from_str` receives a C string. -/
structure Env (E : Type) where
  UNDEFINED : E
  _from_str : Bytes → E
  _to_str : E → Bytes
  base64_decode : Bytes → Bytes → Bytes
  base64_encode : Bytes → Bytes → Int × Bytes
  zlib_decompress : Bytes → Bytes → Int × Bytes
  zlib_compress : Bytes → Bytes → Int × Bytes

/-- The argument `const std::string& input` of `parse_from`. The reference names either a
    string that the call does not touch, given by its content, or the message's own
    `_payload`, as in `m.parse_from(m.payload())`: `payload()` returns a reference to the
    field. -/
inductive Input where
  | str (s : Bytes)
  | own_payload
deriving DecidableEq, Repr

/-- The characters read through `input` while the message is `m`. -/
def Input.read {E : Type} (input : Input) (m : Message E) : Bytes :=
  match input with
  | Input.str s => s
  | Input.own_payload => m._payload

/-- The `error:` label of `parse_from`, reached with the message `m`:
    `_type = E::UNDEFINED; _payload = input; return -1;`. The assignment copies what
    `input` names at that moment; for the message's own payload it copies the field onto
    itself. -/
def parse_error {E : Type} (env : Env E) (input : Input) (m : Message E) : Int × Message E :=
  (-1, { _type := env.UNDEFINED, _payload := input.read m })

/-- The method `Message<E>::parse_from(const std::string& input)`: the returned `int` and the
    message after the call, for the message `m` before the call. The stream is built from
    a copy of the characters of `input`; `m1` is the message after `_type` is assigned and
    `m2` the message after `zlib_decompress` has written into `_payload`. -/
def parse_from {E : Type} [DecidableEq E] (env : Env E) (input : Input) (m : Message E) :
    Int × Message E :=
  let is0 := IStream.ofString (input.read m)
  let buffer0 : Bytes := []
  let payloaz0 : Bytes := []
  if !is0.good then
    parse_error env input m
  else
    let (is1, buffer1) := is0.extract buffer0
    let is2 := is1.ws
    let m1 : Message E := { m with _type := env._from_str (c_str buffer1) }
    if !is2.good || m1._type = env.UNDEFINED then
      parse_error env input m1
    else
      let buffer2 : Bytes := []
      let (is3, buffer3) := is2.extract buffer2
      let _is4 := is3.ws
      let payloaz := env.base64_decode buffer3 payloaz0
      let (rc, _payload) := env.zlib_decompress payloaz m1._payload
      let m2 : Message E := { m1 with _payload := _payload }
      if rc = -1 then
        parse_error env input m2
      else
        (0, m2)

/-- The call `out.clear()` of `std::string`: the string is empty afterwards, whatever it
    held. -/
def string_clear (_s : Bytes) : Bytes :=
  []

/-- The method `Message<E>::write_to(std::string& out) const`: the returned `int` and the content of
    `out` after the call; the argument `out` is its content before the call. -/
def write_to {E : Type} (env : Env E) (m : Message E) (out : Bytes) : Int × Bytes :=
  let out0 : Bytes := string_clear out
  let (rc1, payloaz) := env.zlib_compress m._payload []
  if rc1 = -1 then
    (-1, out0)
  else
    let (rc2, payloaz64) := env.base64_encode payloaz []
    if rc2 = -1 then
      (-1, out0)
    else
      (0, env._to_str m._type ++ [SP] ++ payloaz64 ++ [NL])

/-- The method `Message<E>::write_to(int fd) const`. The system call `::write(fd, buf, count)` is the
    parameter `sys_write`, acting on a state `W` of the outside world and returning its
    `ssize_t` result; `buf` is `out.c_str()`, of which `count = out.size()` bytes are
    read, that is all of `out`. The result of the call is dropped. -/
def write_to_fd {E W : Type} (env : Env E) (sys_write : W → Int → Bytes → Nat → Int × W)
    (m : Message E) (fd : Int) (w : W) : Int × W :=
  let (rc, out) := write_to env m []
  if rc = -1 then
    (-1, w)
  else
    let (_, w1) := sys_write w fd out out.length
    (0, w1)

/-- The method `Message<E>::write_to(std::ostream& oss) const`. The stream is the caller's: its state
    is a value of `S` and `oss << out` is the parameter `insert`. -/
def write_to_ostream {E S : Type} (env : Env E) (insert : S → Bytes → S)
    (m : Message E) (oss : S) : Int × S :=
  let (rc, out) := write_to env m []
  if rc = -1 then
    (-1, oss)
  else
    (0, insert oss out)

/-- The two objects that a call `msg.write_to(out)` can reach: the message and the
    caller's buffer. The buffer is never the message's `_payload`: the field is private and
    `payload()` gives a `const` reference, to which `std::string& out` does not bind. -/
structure WriteState (E : Type) where
  msg : Message E
  out : Bytes
deriving DecidableEq, Repr

/-- A call `msg.write_to(out)` as a step on the message and the buffer: the returned `int`
    and both objects after the call. The method is `const`, `Message` has no `mutable`
    field, and the body assigns to `out` and to its locals `payloaz`, `payloaz64` only, so
    no statement of the body changes `_type` or `_payload`. -/
def write_to_call {E : Type} (env : Env E) (s : WriteState E) : Int × WriteState E :=
  let (rc, out) := write_to env s.msg s.out
  (rc, { msg := s.msg, out := out })

/-! ## Whitespace-delimited tokens -/

/-- The whitespace-delimited tokens of a byte string, in the words of the wire format:
    the maximal runs of non-whitespace characters, in order. -/
def tokens (s : Bytes) : List Bytes :=
  (s.splitOnP isspace).filter (fun t => !t.isEmpty)

/-- The outcome of a parse in terms of the tokens of the input: fewer than two tokens or
    an unresolved first token give the `error:` outcome on the message as it was; a
    rejected second token gives the `error:` outcome on the message whose payload the
    decompressor has written; otherwise the kind is that of the first token and the
    payload is what the decompressor left. Tokens after the second are not looked at. -/
def parse_tokens {E : Type} [DecidableEq E] (env : Env E) (input : Input) (m : Message E) :
    Int × Message E :=
  match tokens (input.read m) with
  | t1 :: t2 :: _ =>
    if env._from_str (c_str t1) = env.UNDEFINED then
      parse_error env input m
    else if (env.zlib_decompress (env.base64_decode t2 []) m._payload).1 = -1 then
      parse_error env input
        { m with _payload := (env.zlib_decompress (env.base64_decode t2 []) m._payload).2 }
    else
      (0, { _type := env._from_str (c_str t1),
            _payload := (env.zlib_decompress (env.base64_decode t2 []) m._payload).2 })
  | _ => parse_error env input m

/-! ## A sample instantiation

A small enumeration and simple collaborators, to evaluate the definitions on concrete
frames. -/

/-- A sample message-kind enumeration with its reserved `UNDEFINED` value. -/
inductive SampleKind where
  | UNDEFINED
  | MONITOR_VM
  | MONITOR_HOST
deriving DecidableEq, Repr

/-- The bytes of an ASCII string. -/
def ascii (s : String) : Bytes :=
  s.toList.map (fun c => Fin.ofNat c.toNat)

/-- Sample text-safe encoder: two letters `a`..`p` per byte, high half first. -/
def sample_encode (i : Bytes) : Bytes :=
  i.flatMap (fun b => [Fin.ofNat (97 + b.val / 16), Fin.ofNat (97 + b.val % 16)])

/-- Sample text-safe decoder, the inverse of `sample_encode` on its image. -/
def sample_decode : Bytes → Bytes
  | hi :: lo :: r => Fin.ofNat ((hi.val - 97) * 16 + (lo.val - 97)) :: sample_decode r
  | _ => []

/-- Sample collaborators. Compression prepends the header byte `1`; decompression strips
    it, and rejects any other stream after copying it to `out`. -/
def sampleEnv : Env SampleKind where
  UNDEFINED := SampleKind.UNDEFINED
  _from_str := fun s =>
    if s = ascii "MONITOR_VM" then SampleKind.MONITOR_VM
    else if s = ascii "MONITOR_HOST" then SampleKind.MONITOR_HOST
    else SampleKind.UNDEFINED
  _to_str := fun k =>
    match k with
    | SampleKind.UNDEFINED => ascii "UNDEFINED"
    | SampleKind.MONITOR_VM => ascii "MONITOR_VM"
    | SampleKind.MONITOR_HOST => ascii "MONITOR_HOST"
  base64_decode := fun i _ => sample_decode i
  base64_encode := fun i _ => (0, sample_encode i)
  zlib_decompress := fun i _ =>
    match i with
    | 1 :: p => (0, p)
    | _ => (-1, i)
  zlib_compress := fun i _ => (0, 1 :: i)

/-- Sample collaborators whose text-safe encoder reports failure after filling `out`. -/
def encodeFailEnv : Env SampleKind :=
  { sampleEnv with base64_encode := fun i _ => (-1, sample_encode i) }

/-- A sample outside world for `::write`: the list of calls made so far, each with its
    descriptor, buffer and count. The call reports a short write of one byte less than
    asked for. -/
def sample_sys_write (w : List (Int × Bytes × Nat)) (fd : Int) (buf : Bytes) (count : Nat) :
    Int × List (Int × Bytes × Nat) :=
  ((count : Int) - 1, w ++ [(fd, buf, count)])

/-- A sample output stream: the characters it holds; insertion adds at the end. -/
def sample_insert (oss : Bytes) (str : Bytes) : Bytes :=
  oss ++ str

/-- The setter `void type(E t)`: `_type = t`. -/
def Message.type {E : Type} (m : Message E) (t : E) : Message E :=
  { m with _type := t }

/-- The setter `void payload(const std::string& p)`: `_payload = p`. -/
def Message.payload {E : Type} (m : Message E) (p : Bytes) : Message E :=
  { m with _payload := p }

/-- The public operations that change a `Message<E>`. The argument of `parse_from` is a
    reference, which may name the message's own payload. -/
inductive Op (E : Type) where
  | parse_from (input : Input)
  | type (t : E)
  | payload (p : Bytes)
deriving DecidableEq, Repr

/-- The message after one public operation. -/
def Message.apply {E : Type} [DecidableEq E] (env : Env E) (m : Message E) :
    Op E → Message E
  | Op.parse_from input => (Monitor.parse_from env input m).2
  | Op.type t => m.type t
  | Op.payload p => m.payload p

/-- The message after a sequence of public operations, first to last. -/
def Message.run {E : Type} [DecidableEq E] (env : Env E) (m : Message E)
    (ops : List (Op E)) : Message E :=
  ops.foldl (Message.apply env) m

/-- A use of the setters that keeps `UNDEFINED` for failed parses: the kind setter is not
    given `UNDEFINED`, and the payload setter is not used on a message whose kind is
    `UNDEFINED`. `parse_from` is always allowed. -/
def allowed {E : Type} [DecidableEq E] (env : Env E) (m : Message E) : Op E → Bool
  | Op.parse_from _ => true
  | Op.type t => decide (t ≠ env.UNDEFINED)
  | Op.payload _ => decide (m._type ≠ env.UNDEFINED)

/-- Every operation of the sequence is `allowed` in the state it is applied to. -/
def guarded {E : Type} [DecidableEq E] (env : Env E) (m : Message E) : List (Op E) → Bool
  | [] => true
  | op :: ops => allowed env m op && guarded env (m.apply env op) ops

/-! ## The payload field in the words of the parse operation -/

/-- Whitespace removed at both ends. -/
def trim (s : Bytes) : Bytes :=
  (s.dropWhile isspace).rdropWhile isspace

/-- The input that remains after its first whitespace-delimited token, with leading and
    trailing whitespace trimmed. -/
def payload_field (input : Bytes) : Bytes :=
  trim ((input.dropWhile isspace).dropWhile (fun b => !isspace b))

/-- Steps 2 to 6 of the parse operation for a candidate kind name `name` and a candidate
    encoded payload `field`: resolve the name, decode and decompress the field, and go to
    the `error:` label when the kind is `UNDEFINED` or the decompressor returns -1. -/
def parse_fields {E : Type} [DecidableEq E] (env : Env E) (input : Input) (m : Message E)
    (name field : Bytes) : Int × Message E :=
  if env._from_str (c_str name) = env.UNDEFINED then
    parse_error env input m
  else if (env.zlib_decompress (env.base64_decode field []) m._payload).1 = -1 then
    parse_error env input
      { m with _payload := (env.zlib_decompress (env.base64_decode field []) m._payload).2 }
  else
    (0, { _type := env._from_str (c_str name),
          _payload := (env.zlib_decompress (env.base64_decode field []) m._payload).2 })

/-- An outside world for `::write` that records the calls made, each with its descriptor,
    buffer and count; what a call returns is given by `report`. -/
def recording_write (report : Int → Bytes → Nat → Int) (w : List (Int × Bytes × Nat))
    (fd : Int) (buf : Bytes) (count : Nat) : Int × List (Int × Bytes × Nat) :=
  (report fd buf count, w ++ [(fd, buf, count)])

end Monitor

/-! ## Tokens and the stream operations -/

namespace Monitor

theorem splitOnP_takeWhile {α : Type} (p : α → Bool) (s : List α) :
    s.splitOnP p = s.takeWhile (fun b => !p b) ::
      (match s.dropWhile (fun b => !p b) with
       | [] => []
       | _ :: r => r.splitOnP p) := by
  induction s with
  | nil => simp
  | cons x xs ih =>
    rw [List.splitOnP_cons]
    by_cases hx : p x = true
    · simp [hx]
    · simp only [hx, if_false]
      rw [ih]
      simp [hx, List.modifyHead]

theorem tokens_nil : tokens [] = [] := by
  simp [tokens]

theorem tokens_cons_space (c : Byte) (cs : Bytes) (hc : isspace c = true) :
    tokens (c :: cs) = tokens cs := by
  simp [tokens, List.splitOnP_cons, hc]

theorem head_dropWhile_false {α : Type} (p : α → Bool) (s : List α) (c : α) (cs : List α)
    (h : s.dropWhile p = c :: cs) : p c = false := by
  have := List.head_dropWhile_not p s (by simp [h])
  simpa [h] using this

theorem tokens_cons_nonspace (c : Byte) (cs : Bytes) (hc : isspace c = false) :
    tokens (c :: cs) = (c :: cs).takeWhile (fun b => !isspace b) ::
      tokens ((c :: cs).dropWhile (fun b => !isspace b)) := by
  have h1 := splitOnP_takeWhile isspace (c :: cs)
  unfold tokens
  rw [h1]
  cases hd : (c :: cs).dropWhile (fun b => !isspace b) with
  | nil => simp [hc]
  | cons d r =>
    have hdsp : isspace d = true := by
      have := head_dropWhile_false _ _ _ _ hd
      simpa using this
    simp [hc, List.splitOnP_cons, hdsp]

/-- The tokens of a string, one step at a time: skip whitespace, take the run of
    non-whitespace characters, go on with what follows it. -/
theorem tokens_eq (s : Bytes) :
    tokens s = match s.dropWhile isspace with
      | [] => []
      | c :: cs => (c :: cs).takeWhile (fun b => !isspace b) ::
          tokens ((c :: cs).dropWhile (fun b => !isspace b)) := by
  induction s with
  | nil => simp [tokens_nil]
  | cons x xs ih =>
    by_cases hx : isspace x = true
    · rw [tokens_cons_space x xs hx, List.dropWhile_cons_of_pos hx]
      exact ih
    · have hx' : isspace x = false := by simpa using hx
      rw [List.dropWhile_cons_of_neg hx]
      exact tokens_cons_nonspace x xs hx'

theorem tokens_of_dropWhile_nil (s : Bytes) (h : s.dropWhile isspace = []) :
    tokens s = [] := by
  rw [tokens_eq, h]

theorem tokens_of_dropWhile_cons (s : Bytes) (c : Byte) (cs : Bytes)
    (h : s.dropWhile isspace = c :: cs) :
    tokens s = (c :: cs).takeWhile (fun b => !isspace b) ::
      tokens ((c :: cs).dropWhile (fun b => !isspace b)) := by
  rw [tokens_eq, h]

theorem extract_at_end (r str : Bytes) (h : r.dropWhile isspace = []) :
    IStream.extract { rest := r, eofbit := false, failbit := false } str =
      ({ rest := [], eofbit := true, failbit := true }, str) := by
  simp [IStream.extract, IStream.good, h]

theorem extract_token (r str : Bytes) (c : Byte) (cs : Bytes)
    (h : r.dropWhile isspace = c :: cs) :
    IStream.extract { rest := r, eofbit := false, failbit := false } str =
      ({ rest := (c :: cs).dropWhile (fun b => !isspace b),
         eofbit := ((c :: cs).dropWhile (fun b => !isspace b)).isEmpty,
         failbit := false },
       (c :: cs).takeWhile (fun b => !isspace b)) := by
  have hc : isspace c = false := head_dropWhile_false _ _ _ _ h
  simp [IStream.extract, IStream.good, h, hc]

theorem ws_not_good (s : IStream) (h : s.good = false) : s.ws.good = false := by
  unfold IStream.ws
  simp only [h, Bool.not_false, if_true]
  simp [IStream.good]

theorem ws_at_end (r : Bytes) (h : r.dropWhile isspace = []) :
    (IStream.ws { rest := r, eofbit := false, failbit := false }).good = false := by
  simp [IStream.ws, IStream.good, h]

theorem ws_skip (r : Bytes) (c : Byte) (cs : Bytes) (h : r.dropWhile isspace = c :: cs) :
    IStream.ws { rest := r, eofbit := false, failbit := false } =
      { rest := c :: cs, eofbit := false, failbit := false } := by
  simp [IStream.ws, IStream.good, h]

theorem parse_error_kind {E : Type} (env : Env E) (input : Input) (k1 k2 : E) (p : Bytes) :
    parse_error env input { _type := k1, _payload := p } =
      parse_error env input { _type := k2, _payload := p } := by
  cases input <;> rfl

/-- The stream code of `parse_from` computes what `parse_tokens` says in terms of the
    tokens of the input. -/
theorem parse_from_eq_parse_tokens {E : Type} [DecidableEq E] (env : Env E) (input : Input)
    (m : Message E) : parse_from env input m = parse_tokens env input m := by
  have hg : (IStream.ofString (input.read m)).good = true := rfl
  have hm : ∀ k : E, parse_error env input { _type := k, _payload := m._payload } =
      parse_error env input m := by
    intro k
    cases input <;> rfl
  simp only [parse_from, parse_tokens, hg, Bool.not_true, Bool.false_eq_true, if_false]
  cases h0 : (input.read m).dropWhile isspace with
  | nil =>
    rw [tokens_of_dropWhile_nil _ h0, IStream.ofString, extract_at_end _ [] h0]
    have hw : (IStream.ws { rest := [], eofbit := true, failbit := true }).good = false :=
      ws_not_good _ rfl
    simp [hw, hm]
  | cons c cs =>
    rw [tokens_of_dropWhile_cons _ c cs h0, IStream.ofString, extract_token _ [] c cs h0]
    cases h1 : (c :: cs).dropWhile (fun b => !isspace b) with
    | nil =>
      have hw : (IStream.ws { rest := [], eofbit := true, failbit := false }).good = false :=
        ws_not_good _ rfl
      simp [hw, tokens_nil, hm]
    | cons d ds =>
      cases h2 : (d :: ds).dropWhile isspace with
      | nil =>
        rw [tokens_of_dropWhile_nil (d :: ds) h2]
        simp [ws_at_end (d :: ds) h2, hm]
      | cons e es =>
        have he : isspace e = false := head_dropWhile_false _ _ _ _ h2
        have h3 : (e :: es).dropWhile isspace = e :: es := by
          simp [he]
        rw [tokens_of_dropWhile_cons (d :: ds) e es h2]
        simp only [List.isEmpty_cons, ws_skip (d :: ds) e es h2,
          extract_token (e :: es) [] e es h3]
        by_cases hk : env._from_str (c_str ((c :: cs).takeWhile (fun b => !isspace b)))
            = env.UNDEFINED
        · simp [hk, IStream.good, hm]
        · by_cases hr : (env.zlib_decompress (env.base64_decode
              ((e :: es).takeWhile (fun b => !isspace b)) []) m._payload).1 = -1
          · simp only [hk, hr, IStream.good, Bool.not_false, Bool.and_self, Bool.not_true,
              decide_False, Bool.or_self, Bool.false_eq_true, if_false, if_true]
            exact parse_error_kind env input _ _ _
          · simp [hk, hr, IStream.good]

/-- A parse returns -1 with kind `UNDEFINED`, and with the input as payload when the input
    is not the message's own payload, or returns 0 with a kind other than `UNDEFINED`. -/
theorem parse_from_cases {E : Type} [DecidableEq E] (env : Env E) (input : Input)
    (m : Message E) :
    ((parse_from env input m).1 = -1 ∧ (parse_from env input m).2._type = env.UNDEFINED ∧
      ∀ x : Bytes, input = Input.str x → (parse_from env input m).2._payload = x) ∨
    ((parse_from env input m).1 = 0 ∧ (parse_from env input m).2._type ≠ env.UNDEFINED) := by
  have herr : ∀ m' : Message E, (parse_error env input m').1 = -1 ∧
      (parse_error env input m').2._type = env.UNDEFINED ∧
      ∀ x : Bytes, input = Input.str x → (parse_error env input m').2._payload = x := by
    intro m'
    refine ⟨rfl, rfl, ?_⟩
    intro x hx
    subst hx
    rfl
  rw [parse_from_eq_parse_tokens]
  unfold parse_tokens
  split
  · split
    · exact Or.inl (herr _)
    · split
      · exact Or.inl (herr _)
      · rename_i hk hr
        exact Or.inr ⟨rfl, hk⟩
  · exact Or.inl (herr _)

theorem c_str_of_no_nul (s : Bytes) (h : ∀ b ∈ s, b ≠ 0) : c_str s = s := by
  unfold c_str
  rw [List.takeWhile_eq_self_iff]
  intro b hb
  have := h b hb
  simp only [bne_iff_ne, ne_eq]
  intro hv
  exact this (Fin.ext hv)

/-- The tokens of a frame laid out as name, space, text, newline. -/
theorem tokens_frame (n e : Bytes) (hn : n ≠ []) (hns : ∀ b ∈ n, isspace b = false)
    (he : e ≠ []) (hes : ∀ b ∈ e, isspace b = false) :
    tokens (n ++ [SP] ++ e ++ [NL]) = [n, e] := by
  have hshape : n ++ [SP] ++ e ++ [NL] = n ++ SP :: (e ++ NL :: []) := by simp
  have h1 : ∀ x ∈ n, ¬ isspace x = true := by
    intro x hx
    simp [hns x hx]
  have h2 : ∀ x ∈ e, ¬ isspace x = true := by
    intro x hx
    simp [hes x hx]
  unfold tokens
  rw [hshape, List.splitOnP_first isspace n h1 SP (by decide),
    List.splitOnP_first isspace e h2 NL (by decide)]
  simp [hn, he]

/-! ## Further facts on `write_to`, `parse_from` and tokens -/

theorem write_to_status {E : Type} (env : Env E) (m : Message E) (o : Bytes) :
    (write_to env m o).1 = 0 ∨ (write_to env m o).1 = -1 := by
  unfold write_to
  by_cases hc : (env.zlib_compress m._payload []).1 = -1
  · simp [hc]
  · by_cases he : (env.base64_encode (env.zlib_compress m._payload []).2 []).1 = -1
    · simp [hc, he]
    · simp [hc, he]

theorem write_to_of_success {E : Type} (env : Env E) (m : Message E) (o : Bytes)
    (h : (write_to env m o).1 = 0) :
    write_to env m o =
      (0, env._to_str m._type ++ [SP] ++
        (env.base64_encode (env.zlib_compress m._payload []).2 []).2 ++ [NL]) := by
  unfold write_to at h ⊢
  by_cases hc : (env.zlib_compress m._payload []).1 = -1
  · simp [hc] at h
  · by_cases he : (env.base64_encode (env.zlib_compress m._payload []).2 []).1 = -1
    · simp [hc, he] at h
    · simp [hc, he]

theorem not_mem_of_no_space (s : Bytes) (c : Byte) (hc : isspace c = true)
    (h : ∀ b ∈ s, isspace b = false) : c ∉ s := by
  intro hmem
  have := h c hmem
  rw [hc] at this
  exact Bool.noConfusion this

theorem trim_token_then_space (t w : Bytes) (ht : t ≠ []) (hts : ∀ b ∈ t, isspace b = false)
    (hw : ∀ b ∈ w, isspace b = true) : List.rdropWhile isspace (t ++ w) = t := by
  unfold List.rdropWhile
  rw [List.reverse_append, List.dropWhile_append_of_pos (by simpa using hw)]
  have hlast : ∀ x ∈ t.reverse, isspace x = false := by
    intro x hx
    exact hts x (by simpa using hx)
  cases hr : t.reverse with
  | nil => simp at hr; exact absurd hr ht
  | cons x xs =>
    have hx : isspace x = false := hlast x (by simp [hr])
    rw [List.dropWhile_cons_of_neg (by simp [hx]), ← hr, List.reverse_reverse]

/-- When a string holds a single token, trimming it gives that token. -/
theorem trim_of_single_token (r t : Bytes) (h : tokens r = [t]) : trim r = t := by
  rw [tokens_eq] at h
  unfold trim
  cases hd : r.dropWhile isspace with
  | nil => simp [hd] at h
  | cons c cs =>
    rw [hd] at h
    simp only [List.cons.injEq] at h
    obtain ⟨h1, h2⟩ := h
    have hc : isspace c = false := head_dropWhile_false _ _ _ _ hd
    have hw : ∀ b ∈ (c :: cs).dropWhile (fun b => !isspace b), isspace b = true := by
      have h3 := tokens_eq ((c :: cs).dropWhile (fun b => !isspace b))
      rw [h2] at h3
      cases h4 : ((c :: cs).dropWhile (fun b => !isspace b)).dropWhile isspace with
      | nil => exact List.dropWhile_eq_nil_iff.mp h4
      | cons d ds => rw [h4] at h3; simp at h3
    have hsplit := List.takeWhile_append_dropWhile (fun b => !isspace b) (c :: cs)
    have hts : ∀ b ∈ (c :: cs).takeWhile (fun b => !isspace b), isspace b = false := by
      intro b hb
      have := List.mem_takeWhile_imp hb
      simpa using this
    have hne : (c :: cs).takeWhile (fun b => !isspace b) ≠ [] := by
      simp [hc]
    have := trim_token_then_space _ _ hne hts hw
    rw [hsplit] at this
    rw [this, h1]

/-- The trimmed remainder of an input with exactly two tokens is its second token. -/
theorem payload_field_of_two_tokens (x t1 t2 : Bytes) (h : tokens x = [t1, t2]) :
    payload_field x = t2 := by
  unfold payload_field
  apply trim_of_single_token
  rw [tokens_eq] at h
  cases hd : x.dropWhile isspace with
  | nil => simp [hd] at h
  | cons c cs =>
    rw [hd] at h
    simp only [List.cons.injEq] at h
    exact h.2

theorem write_to_of_failure {E : Type} (env : Env E) (m : Message E) (o : Bytes)
    (h : (write_to env m o).1 = -1) : write_to env m o = (-1, []) := by
  unfold write_to at h ⊢
  by_cases hc : (env.zlib_compress m._payload []).1 = -1
  · simp [hc, string_clear]
  · by_cases he : (env.base64_encode (env.zlib_compress m._payload []).2 []).1 = -1
    · simp [hc, he, string_clear]
    · simp [hc, he] at h

theorem write_to_any_buffer {E : Type} (env : Env E) (m : Message E) (o1 o2 : Bytes) :
    write_to env m o1 = write_to env m o2 := by
  unfold write_to
  simp only [string_clear]

theorem sample_encode_length (c : Bytes) : (sample_encode c).length = 2 * c.length := by
  induction c with
  | nil => rfl
  | cons b bs ih =>
    have h : sample_encode (b :: bs) =
        Fin.ofNat (97 + b.val / 16) :: Fin.ofNat (97 + b.val % 16) :: sample_encode bs := by
      simp [sample_encode]
    rw [h]
    simp only [List.length_cons, ih]
    omega

theorem run_concat {E : Type} [DecidableEq E] (env : Env E) (m : Message E)
    (ops : List (Op E)) (op : Op E) :
    Message.run env m (ops ++ [op]) = (Message.run env m ops).apply env op := by
  simp [Message.run, List.foldl_append]

theorem guarded_concat {E : Type} [DecidableEq E] (env : Env E) (m : Message E)
    (ops : List (Op E)) (op : Op E) :
    guarded env m (ops ++ [op]) =
      (guarded env m ops && allowed env (Message.run env m ops) op) := by
  induction ops generalizing m with
  | nil => simp [guarded, Message.run]
  | cons o os ih =>
    rw [List.cons_append]
    show (allowed env m o && guarded env (m.apply env o) (os ++ [op])) = _
    rw [ih]
    simp [guarded, Message.run, Bool.and_assoc]

theorem tokens_space_append (w s : Bytes) (hw : ∀ b ∈ w, isspace b = true) :
    tokens (w ++ s) = tokens s := by
  induction w with
  | nil => rfl
  | cons c cs ih =>
    rw [List.cons_append, tokens_cons_space c (cs ++ s) (hw c (by simp))]
    exact ih (fun b hb => hw b (by simp [hb]))

theorem tokens_all_space (w : Bytes) (hw : ∀ b ∈ w, isspace b = true) : tokens w = [] := by
  have := tokens_space_append w [] hw
  rw [List.append_nil, tokens_nil] at this
  exact this

theorem tokens_token_append (t : Bytes) (c : Byte) (s : Bytes) (ht : t ≠ [])
    (hts : ∀ b ∈ t, isspace b = false) (hc : isspace c = true) :
    tokens (t ++ c :: s) = t :: tokens s := by
  have h1 : ∀ x ∈ t, ¬ isspace x = true := by
    intro x hx
    simp [hts x hx]
  unfold tokens
  rw [List.splitOnP_first isspace t h1 c hc]
  simp [ht]

theorem tokens_token (t : Bytes) (ht : t ≠ []) (hts : ∀ b ∈ t, isspace b = false) :
    tokens t = [t] := by
  have h1 : ∀ x ∈ t, ¬ isspace x = true := by
    intro x hx
    simp [hts x hx]
  unfold tokens
  rw [List.splitOnP_eq_single isspace t h1]
  simp [ht]

theorem tokens_token_then_space (t w : Bytes) (ht : t ≠ [])
    (hts : ∀ b ∈ t, isspace b = false) (hw : ∀ b ∈ w, isspace b = true) :
    tokens (t ++ w) = [t] := by
  cases w with
  | nil => rw [List.append_nil]; exact tokens_token t ht hts
  | cons c cs =>
    rw [tokens_token_append t c cs ht hts (hw c (by simp)),
      tokens_all_space cs (fun b hb => hw b (by simp [hb]))]

/-- Two tokens with any whitespace before, between (at least one character) and after. -/
theorem tokens_lenient (w0 t1 w1 t2 w2 : Bytes)
    (ht1 : t1 ≠ []) (hts1 : ∀ b ∈ t1, isspace b = false)
    (ht2 : t2 ≠ []) (hts2 : ∀ b ∈ t2, isspace b = false)
    (hw0 : ∀ b ∈ w0, isspace b = true)
    (hw1 : w1 ≠ []) (hws1 : ∀ b ∈ w1, isspace b = true)
    (hw2 : ∀ b ∈ w2, isspace b = true) :
    tokens (w0 ++ t1 ++ w1 ++ t2 ++ w2) = [t1, t2] := by
  have hshape : w0 ++ t1 ++ w1 ++ t2 ++ w2 = w0 ++ (t1 ++ (w1 ++ (t2 ++ w2))) := by
    simp
  rw [hshape, tokens_space_append w0 _ hw0]
  cases w1 with
  | nil => exact absurd rfl hw1
  | cons c cs =>
    rw [List.cons_append, tokens_token_append t1 c _ ht1 hts1 (hws1 c (by simp)),
      tokens_space_append cs _ (fun b hb => hws1 b (by simp [hb])),
      tokens_token_then_space t2 w2 ht2 hts2 hw2]

theorem c_str_nul_append (n s : Bytes) (hn : ∀ b ∈ n, b ≠ 0) :
    c_str (n ++ [0] ++ s) = n := by
  unfold c_str
  have h : ∀ a ∈ n, (fun c : Byte => c.val != 0) a = true := by
    intro a ha
    have := hn a ha
    simp only [bne_iff_ne, ne_eq]
    intro hv
    exact this (Fin.ext hv)
  rw [List.append_assoc, List.takeWhile_append_of_pos h]
  simp

/-! ## The claims -/

/-- C1 (round trip). For a kind `k` other than `UNDEFINED` and any payload `p`: when
    compression of `p` and encoding of the compressed bytes `c` succeed giving the text `e`,
    decoding `e` gives back `c`, decompressing `c` into the receiving message's payload
    succeeds and leaves `p`, `_from_str (_to_str k) = k`, the name `_to_str k` is non-empty
    without whitespace or NUL, and `e` is non-empty without whitespace, then `write_to`
    on `Message(k, p)` returns 0 and `parse_from` of the written frame, on any message
    `m0` and through any reference `input` that reads as the frame, returns 0 and leaves
    kind `k` and payload `p`. -/
theorem C1_round_trip {E : Type} [DecidableEq E] (env : Env E) (k : E) (p out0 : Bytes)
    (m0 : Message E) (input : Input) (rc1 rc2 rc3 : Int) (c e : Bytes)
    (hk : k ≠ env.UNDEFINED)
    (hcompress : env.zlib_compress p [] = (rc1, c)) (hrc1 : rc1 ≠ -1)
    (hencode : env.base64_encode c [] = (rc2, e)) (hrc2 : rc2 ≠ -1)
    (hdecode : env.base64_decode e [] = c)
    (hdecompress : env.zlib_decompress c m0._payload = (rc3, p)) (hrc3 : rc3 ≠ -1)
    (hfrom : env._from_str (env._to_str k) = k)
    (hname : env._to_str k ≠ [])
    (hname_ok : ∀ b ∈ env._to_str k, isspace b = false ∧ b ≠ 0)
    (htext : e ≠ [])
    (htext_ok : ∀ b ∈ e, isspace b = false)
    (hinput : input.read m0 = (write_to env { _type := k, _payload := p } out0).2) :
    (write_to env { _type := k, _payload := p } out0).1 = 0 ∧
    parse_from env input m0 = (0, { _type := k, _payload := p }) := by
  have hw : write_to env { _type := k, _payload := p } out0 =
      (0, env._to_str k ++ [SP] ++ e ++ [NL]) := by
    simp [write_to, hcompress, hrc1, hencode, hrc2]
  have ht := tokens_frame (env._to_str k) e hname (fun b hb => (hname_ok b hb).1) htext htext_ok
  have hc := c_str_of_no_nul (env._to_str k) (fun b hb => (hname_ok b hb).2)
  rw [hw] at hinput
  refine ⟨by rw [hw], ?_⟩
  rw [parse_from_eq_parse_tokens]
  unfold parse_tokens
  rw [hinput, ht]
  simp only [hc, hfrom, hdecode, hdecompress]
  simp [hk, hrc3]

/-- C1 at a concrete input: kind `MONITOR_VM`, payload space, NUL, newline. -/
theorem C1_round_trip_witness :
    (write_to sampleEnv { _type := SampleKind.MONITOR_VM, _payload := [32, 0, 10] } [7]).1 = 0 ∧
    parse_from sampleEnv
        (Input.str
          (write_to sampleEnv { _type := SampleKind.MONITOR_VM, _payload := [32, 0, 10] } [7]).2)
        { _type := SampleKind.MONITOR_HOST, _payload := [9, 9] } =
      (0, { _type := SampleKind.MONITOR_VM, _payload := [32, 0, 10] }) :=
  C1_round_trip sampleEnv SampleKind.MONITOR_VM [32, 0, 10] [7]
    { _type := SampleKind.MONITOR_HOST, _payload := [9, 9] }
    (Input.str
      (write_to sampleEnv { _type := SampleKind.MONITOR_VM, _payload := [32, 0, 10] } [7]).2)
    0 0 0 [1, 32, 0, 10] (sample_encode [1, 32, 0, 10])
    (by decide) rfl (by decide) rfl (by decide) (by decide) rfl (by decide) (by decide)
    (by decide) (by decide) (by decide) (by decide) rfl

/-- C2 at the failing input `m.parse_from(m.payload())`, for a message whose payload is
    the frame `MONITOR_VM cdcd`: the sample decompressor writes the rejected bytes `##`
    into `_payload`, which is also `input`, before it returns -1, and the `error:` label
    then assigns `_payload` to itself. The call returns -1 and leaves the payload `##`,
    not the input. -/
theorem C2_aliased_input_not_kept :
    parse_from sampleEnv Input.own_payload
        { _type := SampleKind.MONITOR_HOST, _payload := ascii "MONITOR_VM cdcd\n" } =
      (-1, { _type := SampleKind.UNDEFINED, _payload := ascii "##" }) ∧
    ascii "##" ≠ ascii "MONITOR_VM cdcd\n" := by
  decide

/-- C3 (malformed frames are rejected). An input with fewer than two whitespace-delimited
    tokens makes `parse_from` return -1 with kind `UNDEFINED` and payload equal to the
    input, whatever the collaborators return; also when the input is the message's own
    payload. -/
theorem C3_malformed_rejected {E : Type} [DecidableEq E] (env : Env E) (input : Input)
    (m : Message E) (hfew : (tokens (input.read m)).length < 2) :
    parse_from env input m = (-1, { _type := env.UNDEFINED, _payload := input.read m }) := by
  rw [parse_from_eq_parse_tokens]
  unfold parse_tokens
  split
  · rename_i t1 t2 ts heq
    rw [heq] at hfew
    simp only [List.length_cons] at hfew
    omega
  · rfl

/-- C3 at a concrete input: a valid kind name alone, with surrounding whitespace. -/
theorem C3_malformed_rejected_witness :
    (tokens (ascii " MONITOR_VM \n")).length < 2 ∧
    parse_from sampleEnv (Input.str (ascii " MONITOR_VM \n"))
        { _type := SampleKind.MONITOR_HOST, _payload := [9] } =
      (-1, { _type := sampleEnv.UNDEFINED, _payload := ascii " MONITOR_VM \n" }) :=
  ⟨by decide, C3_malformed_rejected sampleEnv (Input.str (ascii " MONITOR_VM \n"))
    { _type := SampleKind.MONITOR_HOST, _payload := [9] } (by decide)⟩

/-- C4 (unknown kind is a recoverable failure). When the first whitespace-delimited token
    of the input, handed to `_from_str` as a C string, is mapped to `UNDEFINED`,
    `parse_from` returns -1 with kind `UNDEFINED` and payload equal to the input,
    whatever follows the first token; also when the input is the message's own payload. -/
theorem C4_unknown_kind {E : Type} [DecidableEq E] (env : Env E) (input : Input)
    (m : Message E) (t1 : Bytes) (ts : List Bytes) (htok : tokens (input.read m) = t1 :: ts)
    (hundef : env._from_str (c_str t1) = env.UNDEFINED) :
    parse_from env input m = (-1, { _type := env.UNDEFINED, _payload := input.read m }) := by
  rw [parse_from_eq_parse_tokens]
  unfold parse_tokens
  rw [htok]
  cases ts with
  | nil => rfl
  | cons t2 ts => simp [hundef, parse_error]

/-- C4 at a concrete input: `BOGUS` followed by a well-formed payload token. -/
theorem C4_unknown_kind_witness :
    tokens (ascii "BOGUS abcd\n") = [ascii "BOGUS", ascii "abcd"] ∧
    sampleEnv._from_str (c_str (ascii "BOGUS")) = sampleEnv.UNDEFINED ∧
    parse_from sampleEnv (Input.str (ascii "BOGUS abcd\n"))
        { _type := SampleKind.MONITOR_HOST, _payload := [9] } =
      (-1, { _type := sampleEnv.UNDEFINED, _payload := ascii "BOGUS abcd\n" }) :=
  ⟨by decide, by decide, C4_unknown_kind sampleEnv (Input.str (ascii "BOGUS abcd\n"))
    { _type := SampleKind.MONITOR_HOST, _payload := [9] } (ascii "BOGUS") [ascii "abcd"]
    (by decide) (by decide)⟩

/-- C5 at the failing input `m.parse_from(m.payload())`, for a message whose payload is
    the frame `MONITOR_HOST cdef`: the kind name is valid, the decompressor rejects the
    decoded token after writing the bytes `#E` into the payload, and the call returns -1
    with the payload `#E`, not the input. -/
theorem C5_aliased_corrupt_payload :
    tokens (ascii "MONITOR_HOST cdef\n") = [ascii "MONITOR_HOST", ascii "cdef"] ∧
    sampleEnv._from_str (c_str (ascii "MONITOR_HOST")) ≠ sampleEnv.UNDEFINED ∧
    sampleEnv.zlib_decompress (sampleEnv.base64_decode (ascii "cdef") [])
        (ascii "MONITOR_HOST cdef\n") = (-1, ascii "#E") ∧
    parse_from sampleEnv Input.own_payload
        { _type := SampleKind.MONITOR_VM, _payload := ascii "MONITOR_HOST cdef\n" } =
      (-1, { _type := SampleKind.UNDEFINED, _payload := ascii "#E" }) ∧
    ascii "#E" ≠ ascii "MONITOR_HOST cdef\n" := by
  decide

/-- C6 (success postcondition of `parse_from`). When the input has at least two
    whitespace-delimited tokens `t1`, `t2`, the kind mapping resolves `t1` to a kind `k`
    other than `UNDEFINED`, and the decompressor accepts the decoded `t2` leaving the bytes
    `d`, then `parse_from` returns 0 with kind `k` and payload `d`. Conversely, whenever
    `parse_from` returns 0 the resulting kind is not `UNDEFINED`. Both hold also when the
    input is the message's own payload. -/
theorem C6_success_postcondition {E : Type} [DecidableEq E] (env : Env E) (input : Input)
    (m : Message E) :
    (∀ (t1 t2 : Bytes) (ts : List Bytes) (k : E) (rc : Int) (d : Bytes),
      tokens (input.read m) = t1 :: t2 :: ts →
      env._from_str (c_str t1) = k → k ≠ env.UNDEFINED →
      env.zlib_decompress (env.base64_decode t2 []) m._payload = (rc, d) → rc ≠ -1 →
      parse_from env input m = (0, { _type := k, _payload := d })) ∧
    ((parse_from env input m).1 = 0 → (parse_from env input m).2._type ≠ env.UNDEFINED) := by
  constructor
  · intro t1 t2 ts k rc d htok hk hne hdec hrc
    rw [parse_from_eq_parse_tokens]
    unfold parse_tokens
    rw [htok]
    simp [hk, hne, hdec, hrc]
  · intro h0
    rcases parse_from_cases env input m with ⟨h1, _⟩ | ⟨_, h2⟩
    · rw [h1] at h0
      exact absurd h0 (by decide)
    · exact h2

/-- C6 at a concrete input: a frame with extra whitespace and a third token. -/
theorem C6_success_postcondition_witness :
    parse_from sampleEnv (Input.str (ascii "  MONITOR_HOST\t abgi \n zz"))
        { _type := SampleKind.UNDEFINED, _payload := [9] } =
      (0, { _type := SampleKind.MONITOR_HOST, _payload := [104] }) ∧
    (parse_from sampleEnv (Input.str (ascii "  MONITOR_HOST\t abgi \n zz"))
        { _type := SampleKind.UNDEFINED, _payload := [9] }).2._type ≠ sampleEnv.UNDEFINED :=
  ⟨(C6_success_postcondition sampleEnv (Input.str (ascii "  MONITOR_HOST\t abgi \n zz"))
      { _type := SampleKind.UNDEFINED, _payload := [9] }).1
      (ascii "MONITOR_HOST") (ascii "abgi") [ascii "zz"] SampleKind.MONITOR_HOST 0 [104]
      (by decide) (by decide) (by decide) (by decide) (by decide),
   (C6_success_postcondition sampleEnv (Input.str (ascii "  MONITOR_HOST\t abgi \n zz"))
      { _type := SampleKind.UNDEFINED, _payload := [9] }).2 (by decide)⟩

/-- C7 (serialized frame layout). When compression of the payload and encoding of the
    compressed bytes succeed, `write_to(out)` returns 0 and `out` is exactly
    `_to_str(kind)`, one space, the encoded compressed payload, one newline, whatever
    `out` held before. -/
theorem C7_frame_layout {E : Type} (env : Env E) (m : Message E) (out0 : Bytes)
    (hcompress : (env.zlib_compress m._payload []).1 ≠ -1)
    (hencode : (env.base64_encode (env.zlib_compress m._payload []).2 []).1 ≠ -1) :
    write_to env m out0 =
      (0, env._to_str m._type ++ [SP] ++
        (env.base64_encode (env.zlib_compress m._payload []).2 []).2 ++ [NL]) := by
  simp [write_to, hcompress, hencode]

/-- C7 at a concrete input: the frame of `MONITOR_VM` with payload `h`, written over a
    non-empty buffer. -/
theorem C7_frame_layout_witness :
    write_to sampleEnv { _type := SampleKind.MONITOR_VM, _payload := [104] } [1, 2, 3] =
      (0, ascii "MONITOR_VM abgi\n") :=
  C7_frame_layout sampleEnv { _type := SampleKind.MONITOR_VM, _payload := [104] } [1, 2, 3]
    (by decide) (by decide)

/-- C8 (serialize failure produces no output). If `zlib_compress` returns -1, or
    `base64_encode` returns -1 on the compressed bytes, then `write_to(out)` returns -1 and
    leaves `out` empty, and the descriptor and stream overloads return -1 without calling
    `::write` or inserting into the stream: the world and the stream are unchanged. -/
theorem C8_failure_no_output {E W S : Type} (env : Env E) (m : Message E) (out0 : Bytes)
    (sys_write : W → Int → Bytes → Nat → Int × W) (fd : Int) (w : W)
    (insert : S → Bytes → S) (oss : S)
    (hfail : (env.zlib_compress m._payload []).1 = -1 ∨
      (env.base64_encode (env.zlib_compress m._payload []).2 []).1 = -1) :
    write_to env m out0 = (-1, []) ∧
    write_to_fd env sys_write m fd w = (-1, w) ∧
    write_to_ostream env insert m oss = (-1, oss) := by
  have hw : ∀ o, write_to env m o = (-1, []) := by
    intro o
    unfold write_to
    rcases hfail with h | h
    · simp [h, string_clear]
    · by_cases hc : (env.zlib_compress m._payload []).1 = -1
      · simp [hc, string_clear]
      · simp [hc, h, string_clear]
  refine ⟨hw out0, ?_, ?_⟩
  · simp [write_to_fd, hw []]
  · simp [write_to_ostream, hw []]

/-- C8 at a concrete input: the encoder fails after it has filled its output. -/
theorem C8_failure_no_output_witness :
    write_to encodeFailEnv { _type := SampleKind.MONITOR_VM, _payload := [104] } [1, 2, 3] =
      (-1, []) ∧
    write_to_fd encodeFailEnv sample_sys_write
        { _type := SampleKind.MONITOR_VM, _payload := [104] } 5 [] = (-1, []) ∧
    write_to_ostream encodeFailEnv sample_insert
        { _type := SampleKind.MONITOR_VM, _payload := [104] } [1, 2] = (-1, [1, 2]) :=
  C8_failure_no_output encodeFailEnv { _type := SampleKind.MONITOR_VM, _payload := [104] }
    [1, 2, 3] sample_sys_write 5 [] sample_insert [1, 2] (Or.inr (by decide))

/-- C9 (sink equivalence). The three `write_to` overloads return the same status, and
    when that status is 0 the descriptor overload makes exactly the call
    `::write(fd, out, out.size())` and the stream overload exactly the insertion
    `oss << out`, where `out` is the content of the buffer produced by
    `write_to(std::string&)`; this holds for every behaviour of `::write` and of the
    stream. -/
theorem C9_sink_equivalence {E W S : Type} (env : Env E) (m : Message E) (out0 : Bytes)
    (sys_write : W → Int → Bytes → Nat → Int × W) (fd : Int) (w : W)
    (insert : S → Bytes → S) (oss : S) :
    (write_to_fd env sys_write m fd w).1 = (write_to env m out0).1 ∧
    (write_to_ostream env insert m oss).1 = (write_to env m out0).1 ∧
    ((write_to env m out0).1 = 0 →
      (write_to_fd env sys_write m fd w).2 =
        (sys_write w fd (write_to env m out0).2 (write_to env m out0).2.length).2 ∧
      (write_to_ostream env insert m oss).2 = insert oss (write_to env m out0).2) := by
  have hw : write_to env m out0 = write_to env m [] := rfl
  rw [hw]
  have hst : (write_to env m []).1 = 0 ∨ (write_to env m []).1 = -1 := by
    unfold write_to
    by_cases hc : (env.zlib_compress m._payload []).1 = -1
    · simp [hc]
    · by_cases he : (env.base64_encode (env.zlib_compress m._payload []).2 []).1 = -1
      · simp [hc, he]
      · simp [hc, he]
  rcases hst with h | h
  · have hne : ¬ (write_to env m []).1 = -1 := by
      rw [h]
      decide
    simp [write_to_fd, write_to_ostream, h, hne]
  · simp [write_to_fd, write_to_ostream, h]

/-- C9 at a concrete input, with a world that records the calls of `::write` and a stream
    that holds its characters: one call with the whole frame, and the frame appended to
    the stream. -/
theorem C9_sink_equivalence_witness :
    (write_to sampleEnv { _type := SampleKind.MONITOR_VM, _payload := [0] } [7]) =
      (0, ascii "MONITOR_VM abaa\n") ∧
    (write_to_fd sampleEnv sample_sys_write { _type := SampleKind.MONITOR_VM, _payload := [0] }
        5 []).2 = [(5, ascii "MONITOR_VM abaa\n", 16)] ∧
    (write_to_ostream sampleEnv sample_insert
        { _type := SampleKind.MONITOR_VM, _payload := [0] } []).2 = ascii "MONITOR_VM abaa\n" :=
  ⟨by decide,
   ((C9_sink_equivalence sampleEnv { _type := SampleKind.MONITOR_VM, _payload := [0] } [7]
      sample_sys_write 5 [] sample_insert []).2.2 (by decide)).1,
   ((C9_sink_equivalence sampleEnv { _type := SampleKind.MONITOR_VM, _payload := [0] } [7]
      sample_sys_write 5 [] sample_insert []).2.2 (by decide)).2⟩

/-- C11 (frame shape of serialized output). When `write_to(out)` succeeds and neither the
    kind name nor the encoded payload contains whitespace, `out` is the kind name, one
    space, the encoded payload, one newline; it holds exactly one space byte and exactly
    one newline byte, and the newline is its last byte. -/
theorem C11_frame_shape {E : Type} (env : Env E) (m : Message E) (out0 : Bytes)
    (hok : (write_to env m out0).1 = 0)
    (hname : ∀ b ∈ env._to_str m._type, isspace b = false)
    (htext : ∀ b ∈ (env.base64_encode (env.zlib_compress m._payload []).2 []).2,
      isspace b = false) :
    (write_to env m out0).2 = env._to_str m._type ++ [SP] ++
      (env.base64_encode (env.zlib_compress m._payload []).2 []).2 ++ [NL] ∧
    (write_to env m out0).2.count SP = 1 ∧
    (write_to env m out0).2.count NL = 1 ∧
    (write_to env m out0).2.getLast? = some NL := by
  rw [write_to_of_success env m out0 hok]
  have h1 := not_mem_of_no_space _ SP (by decide) hname
  have h2 := not_mem_of_no_space _ SP (by decide) htext
  have h3 := not_mem_of_no_space _ NL (by decide) hname
  have h4 := not_mem_of_no_space _ NL (by decide) htext
  have hsn : (SP == NL) = false := by decide
  have hns : (NL == SP) = false := by decide
  refine ⟨rfl, ?_, ?_, ?_⟩
  · simp [List.count_append, List.count_eq_zero.mpr h1, List.count_eq_zero.mpr h2,
      List.count_cons, hns]
  · simp [List.count_append, List.count_eq_zero.mpr h3, List.count_eq_zero.mpr h4,
      List.count_cons, hsn]
  · exact List.getLast?_concat _

/-- C11 at a concrete input: the frame of `MONITOR_VM` with a payload of space, newline
    and NUL. -/
theorem C11_frame_shape_witness :
    (write_to sampleEnv { _type := SampleKind.MONITOR_VM, _payload := [32, 10, 0] } []).2 =
      ascii "MONITOR_VM abcaakaa\n" ∧
    (write_to sampleEnv { _type := SampleKind.MONITOR_VM, _payload := [32, 10, 0] } []).2.count
      SP = 1 ∧
    (write_to sampleEnv { _type := SampleKind.MONITOR_VM, _payload := [32, 10, 0] } []).2.count
      NL = 1 ∧
    (write_to sampleEnv { _type := SampleKind.MONITOR_VM, _payload := [32, 10, 0] }
      []).2.getLast? = some NL :=
  C11_frame_shape sampleEnv { _type := SampleKind.MONITOR_VM, _payload := [32, 10, 0] } []
    (by decide) (by decide) (by decide)

/-- C12, as stated, fails: for an input with three tokens the decoder is handed the second
    token only, not the trimmed remainder `abgi abgi`; the parse leaves the payload decoded
    from `abgi`, where the trimmed remainder would give another payload. -/
theorem C12_decoder_gets_second_token_only :
    payload_field (ascii "MONITOR_VM abgi abgi\n") = ascii "abgi abgi" ∧
    parse_from sampleEnv (Input.str (ascii "MONITOR_VM abgi abgi\n"))
        { _type := SampleKind.MONITOR_HOST, _payload := [] } =
      (0, { _type := SampleKind.MONITOR_VM, _payload := [104] }) ∧
    parse_fields sampleEnv (Input.str (ascii "MONITOR_VM abgi abgi\n"))
        { _type := SampleKind.MONITOR_HOST, _payload := [] } (ascii "MONITOR_VM")
        (payload_field (ascii "MONITOR_VM abgi abgi\n")) =
      (0, { _type := SampleKind.MONITOR_VM, _payload := [104, 0, 22] }) ∧
    parse_from sampleEnv (Input.str (ascii "MONITOR_VM abgi abgi\n"))
        { _type := SampleKind.MONITOR_HOST, _payload := [] } ≠
      parse_fields sampleEnv (Input.str (ascii "MONITOR_VM abgi abgi\n"))
        { _type := SampleKind.MONITOR_HOST, _payload := [] } (ascii "MONITOR_VM")
        (payload_field (ascii "MONITOR_VM abgi abgi\n")) := by
  decide

/-- C12, amended. For an input with at least two whitespace-delimited tokens, `parse_from`
    takes the first token as the candidate kind name and hands the second token to the
    text-safe decoder; what follows the second token is not used. When the input has
    exactly two tokens, the second token is the remaining input with leading and trailing
    whitespace trimmed. This holds also when the input is the message's own payload. -/
theorem C12_tokenization {E : Type} [DecidableEq E] (env : Env E) (input : Input)
    (m : Message E) (t1 t2 : Bytes) (ts : List Bytes)
    (htok : tokens (input.read m) = t1 :: t2 :: ts) :
    parse_from env input m = parse_fields env input m t1 t2 ∧
    (ts = [] → payload_field (input.read m) = t2 ∧
      parse_from env input m = parse_fields env input m t1 (payload_field (input.read m))) := by
  have h1 : parse_from env input m = parse_fields env input m t1 t2 := by
    rw [parse_from_eq_parse_tokens]
    unfold parse_tokens parse_fields
    rw [htok]
  refine ⟨h1, ?_⟩
  intro hts
  rw [hts] at htok
  have h2 := payload_field_of_two_tokens (input.read m) t1 t2 htok
  exact ⟨h2, by rw [h2]; exact h1⟩

/-- C12 amended, at a concrete input with extra whitespace and exactly two tokens. -/
theorem C12_tokenization_witness :
    parse_from sampleEnv (Input.str (ascii " MONITOR_VM \t abgi \n"))
        { _type := SampleKind.MONITOR_HOST, _payload := [] } =
      parse_fields sampleEnv (Input.str (ascii " MONITOR_VM \t abgi \n"))
        { _type := SampleKind.MONITOR_HOST, _payload := [] } (ascii "MONITOR_VM")
        (ascii "abgi") ∧
    payload_field (ascii " MONITOR_VM \t abgi \n") = ascii "abgi" :=
  ⟨(C12_tokenization sampleEnv (Input.str (ascii " MONITOR_VM \t abgi \n"))
      { _type := SampleKind.MONITOR_HOST, _payload := [] } (ascii "MONITOR_VM")
      (ascii "abgi") [] (by decide)).1,
   ((C12_tokenization sampleEnv (Input.str (ascii " MONITOR_VM \t abgi \n"))
      { _type := SampleKind.MONITOR_HOST, _payload := [] } (ascii "MONITOR_VM")
      (ascii "abgi") [] (by decide)).2 rfl).1⟩

/-- C13, as stated, fails: the token `abz` is the encoding of no byte string, yet the
    sample decoder, which like `base64_decode` returns nothing but its output, decodes
    its leading pair, the decompressor accepts that, and `parse_from` returns 0 with kind
    `MONITOR_VM`. -/
theorem C13_undecodable_token_accepted :
    tokens (ascii "MONITOR_VM abz\n") = [ascii "MONITOR_VM", ascii "abz"] ∧
    sampleEnv._from_str (c_str (ascii "MONITOR_VM")) ≠ sampleEnv.UNDEFINED ∧
    (∀ c o : Bytes, (sampleEnv.base64_encode c o).2 ≠ ascii "abz") ∧
    parse_from sampleEnv (Input.str (ascii "MONITOR_VM abz\n"))
        { _type := SampleKind.MONITOR_HOST, _payload := [9] } =
      (0, { _type := SampleKind.MONITOR_VM, _payload := [] }) := by
  refine ⟨by decide, by decide, ?_, by decide⟩
  intro c o h
  have hlen := sample_encode_length c
  have h3 : (ascii "abz").length = 3 := by decide
  have h' : sample_encode c = ascii "abz" := h
  rw [h', h3] at hlen
  omega

/-- C13, amended. `base64_decode` returns `void`: the decode step has no way to reject a
    token. For an input with a valid kind name and a payload token, `parse_from` returns
    -1 exactly when `zlib_decompress` returns -1 on whatever the decoder left in its
    output. The kind is then `UNDEFINED`, and the payload is the input when the input is a
    string other than the message's own payload. Otherwise the parse returns 0 with what
    the decompressor produced. -/
theorem C13_decode_has_no_failure {E : Type} [DecidableEq E] (env : Env E) (input : Input)
    (m : Message E) (t1 t2 : Bytes) (ts : List Bytes)
    (htok : tokens (input.read m) = t1 :: t2 :: ts)
    (hkind : env._from_str (c_str t1) ≠ env.UNDEFINED) :
    ((parse_from env input m).1 = -1 ↔
      (env.zlib_decompress (env.base64_decode t2 []) m._payload).1 = -1) ∧
    ((parse_from env input m).1 = -1 →
      (parse_from env input m).2._type = env.UNDEFINED ∧
      ∀ x : Bytes, input = Input.str x → (parse_from env input m).2._payload = x) ∧
    ((env.zlib_decompress (env.base64_decode t2 []) m._payload).1 ≠ -1 →
      parse_from env input m =
        (0, { _type := env._from_str (c_str t1),
              _payload := (env.zlib_decompress (env.base64_decode t2 []) m._payload).2 })) := by
  have hval : parse_from env input m = parse_tokens env input m :=
    parse_from_eq_parse_tokens env input m
  unfold parse_tokens at hval
  rw [htok] at hval
  refine ⟨?_, ?_, ?_⟩
  · by_cases hr : (env.zlib_decompress (env.base64_decode t2 []) m._payload).1 = -1
    · simp [hval, hkind, hr, parse_error]
    · simp [hval, hkind, hr]
  · intro hfail
    rcases parse_from_cases env input m with ⟨_, h2, h3⟩ | ⟨h0, _⟩
    · exact ⟨h2, h3⟩
    · rw [h0] at hfail
      exact absurd hfail (by decide)
  · intro hr
    simp [hval, hkind, hr]

/-- C13 amended, at a concrete input: a token of letters outside the sample alphabet is
    decoded to bytes the decompressor rejects, and only that makes the parse fail. -/
theorem C13_decode_has_no_failure_witness :
    (parse_from sampleEnv (Input.str (ascii "MONITOR_VM zzzz\n"))
        { _type := SampleKind.MONITOR_HOST, _payload := [9] }).1 = -1 ∧
    (parse_from sampleEnv (Input.str (ascii "MONITOR_VM zzzz\n"))
        { _type := SampleKind.MONITOR_HOST, _payload := [9] }).2._type = sampleEnv.UNDEFINED ∧
    (parse_from sampleEnv (Input.str (ascii "MONITOR_VM zzzz\n"))
        { _type := SampleKind.MONITOR_HOST, _payload := [9] }).2._payload =
      ascii "MONITOR_VM zzzz\n" :=
  ⟨((C13_decode_has_no_failure sampleEnv (Input.str (ascii "MONITOR_VM zzzz\n"))
      { _type := SampleKind.MONITOR_HOST, _payload := [9] } (ascii "MONITOR_VM")
      (ascii "zzzz") [] (by decide) (by decide)).1).2 (by decide),
   ((C13_decode_has_no_failure sampleEnv (Input.str (ascii "MONITOR_VM zzzz\n"))
      { _type := SampleKind.MONITOR_HOST, _payload := [9] } (ascii "MONITOR_VM")
      (ascii "zzzz") [] (by decide) (by decide)).2.1 (by decide)).1,
   ((C13_decode_has_no_failure sampleEnv (Input.str (ascii "MONITOR_VM zzzz\n"))
      { _type := SampleKind.MONITOR_HOST, _payload := [9] } (ascii "MONITOR_VM")
      (ascii "zzzz") [] (by decide) (by decide)).2.1 (by decide)).2 _ rfl⟩

/-- C14, as stated, fails. The kind setter stores `UNDEFINED` in a message that was never
    parsed, and the payload setter replaces the raw input kept by a failed parse while the
    kind stays `UNDEFINED`. -/
theorem C14_setters_break_invariant :
    Message.run sampleEnv { _type := SampleKind.MONITOR_VM, _payload := ascii "data" }
        [Op.type SampleKind.UNDEFINED] =
      { _type := SampleKind.UNDEFINED, _payload := ascii "data" } ∧
    (¬ ∃ (pre : List (Op SampleKind)) (input : Input) (post : List (Op SampleKind)),
      [Op.type SampleKind.UNDEFINED] = pre ++ Op.parse_from input :: post) ∧
    Message.run sampleEnv { _type := SampleKind.MONITOR_VM, _payload := [] }
        [Op.parse_from (Input.str (ascii "BOGUS x\n")), Op.payload (ascii "data")] =
      { _type := SampleKind.UNDEFINED, _payload := ascii "data" } ∧
    ascii "data" ≠ ascii "BOGUS x\n" := by
  refine ⟨by decide, ?_, by decide, by decide⟩
  rintro ⟨pre, x, post, h⟩
  cases pre with
  | nil => simp at h
  | cons a pre => simp at h

/-- C14, amended. Start from a message whose kind is not `UNDEFINED` and apply any sequence
    of public operations in which the kind setter is never given `UNDEFINED` and the
    payload setter is never used while the kind is `UNDEFINED`. If the kind is `UNDEFINED`
    afterwards, the last operation was a `parse_from` that returned -1, and the payload is
    the input of that parse when that input was a string other than the message's own
    payload. -/
theorem C14_undefined_invariant {E : Type} [DecidableEq E] (env : Env E) (m0 : Message E)
    (ops : List (Op E)) (h0 : m0._type ≠ env.UNDEFINED) (hg : guarded env m0 ops = true)
    (hU : (Message.run env m0 ops)._type = env.UNDEFINED) :
    ∃ (pre : List (Op E)) (input : Input), ops = pre ++ [Op.parse_from input] ∧
      (parse_from env input (Message.run env m0 pre)).1 = -1 ∧
      ∀ x : Bytes, input = Input.str x → (Message.run env m0 ops)._payload = x := by
  rcases List.eq_nil_or_concat ops with hnil | ⟨pre, op, hops⟩
  · subst hnil
    exact absurd hU h0
  · rw [List.concat_eq_append] at hops
    subst hops
    rw [guarded_concat, Bool.and_eq_true] at hg
    rw [run_concat] at hU ⊢
    cases op with
    | parse_from input =>
      refine ⟨pre, input, rfl, ?_⟩
      simp only [Message.apply] at hU ⊢
      rcases parse_from_cases env input (Message.run env m0 pre) with ⟨h1, _, h3⟩ | ⟨_, hne⟩
      · exact ⟨h1, h3⟩
      · exact absurd hU hne
    | type t =>
      have ht : t ≠ env.UNDEFINED := by simpa [allowed] using hg.2
      exact absurd hU ht
    | payload p =>
      have hm : (Message.run env m0 pre)._type ≠ env.UNDEFINED := by
        simpa [allowed] using hg.2
      exact absurd hU hm

/-- C14 amended, at a concrete run: both setters, then a parse of an unknown kind. -/
theorem C14_undefined_invariant_witness :
    ∃ (pre : List (Op SampleKind)) (input : Input),
      [Op.payload (ascii "data"), Op.type SampleKind.MONITOR_HOST,
        Op.parse_from (Input.str (ascii "BOGUS x\n"))] = pre ++ [Op.parse_from input] ∧
      (parse_from sampleEnv input (Message.run sampleEnv
        { _type := SampleKind.MONITOR_VM, _payload := [] } pre)).1 = -1 ∧
      ∀ x : Bytes, input = Input.str x →
        (Message.run sampleEnv { _type := SampleKind.MONITOR_VM, _payload := [] }
          [Op.payload (ascii "data"), Op.type SampleKind.MONITOR_HOST,
            Op.parse_from (Input.str (ascii "BOGUS x\n"))])._payload = x :=
  C14_undefined_invariant sampleEnv { _type := SampleKind.MONITOR_VM, _payload := [] }
    [Op.payload (ascii "data"), Op.type SampleKind.MONITOR_HOST,
      Op.parse_from (Input.str (ascii "BOGUS x\n"))] (by decide) (by decide) (by decide)

/-- C15 (serialization is pure and safe to retry). A call `msg.write_to(out)`, as a step on
    the message and the buffer, with any prior content of the buffer:
    it leaves the message's kind and payload as they were; it returns -1 with the buffer
    empty, or 0 with the buffer holding the frame; its status and the bytes it leaves do
    not change when the prior content of the buffer is replaced by any `out2`; and a
    second call, on the message and the buffer left by the first, returns the same status
    and leaves the same message and bytes. The collaborators are functions of their
    arguments. -/
theorem C15_write_to_pure {E : Type} (env : Env E) (s : WriteState E) (out2 : Bytes) :
    (write_to_call env s).2.msg = s.msg ∧
    ((write_to_call env s).1 = -1 →
      write_to_call env s = (-1, { msg := s.msg, out := [] })) ∧
    ((write_to_call env s).1 ≠ -1 →
      write_to_call env s = (0, { msg := s.msg, out := env._to_str s.msg._type ++ [SP] ++
        (env.base64_encode (env.zlib_compress s.msg._payload []).2 []).2 ++ [NL] })) ∧
    (write_to_call env { msg := s.msg, out := out2 }).1 = (write_to_call env s).1 ∧
    (write_to_call env { msg := s.msg, out := out2 }).2.out = (write_to_call env s).2.out ∧
    write_to_call env (write_to_call env s).2 = write_to_call env s := by
  have hcall : ∀ t : WriteState E, write_to_call env t =
      ((write_to env t.msg t.out).1, { msg := t.msg, out := (write_to env t.msg t.out).2 }) :=
    fun _ => rfl
  have hany := write_to_any_buffer env s.msg
  refine ⟨by rw [hcall], ?_, ?_, ?_, ?_, ?_⟩
  · intro h
    rw [hcall] at h ⊢
    rw [write_to_of_failure env s.msg s.out h]
  · intro h
    rw [hcall] at h ⊢
    rcases write_to_status env s.msg s.out with h0 | h1
    · rw [write_to_of_success env s.msg s.out h0]
    · exact absurd h1 h
  · rw [hcall, hcall]
    show (write_to env s.msg out2).1 = (write_to env s.msg s.out).1
    rw [hany out2 s.out]
  · rw [hcall, hcall]
    show (write_to env s.msg out2).2 = (write_to env s.msg s.out).2
    rw [hany out2 s.out]
  · rw [hcall (write_to_call env s).2, hcall s]
    simp only [hany (write_to env s.msg s.out).2 s.out]

/-- C15 at two concrete inputs: a failing encoder, which leaves the message alone and the
    buffer empty, and a successful call over a non-empty buffer. -/
theorem C15_write_to_pure_witness :
    write_to_call encodeFailEnv
        { msg := { _type := SampleKind.MONITOR_VM, _payload := [104] }, out := [1, 2, 3] } =
      (-1, { msg := { _type := SampleKind.MONITOR_VM, _payload := [104] }, out := [] }) ∧
    write_to_call sampleEnv
        { msg := { _type := SampleKind.MONITOR_VM, _payload := [104] }, out := [1, 2, 3] } =
      (0, { msg := { _type := SampleKind.MONITOR_VM, _payload := [104] },
            out := ascii "MONITOR_VM abgi\n" }) :=
  ⟨(C15_write_to_pure encodeFailEnv
      { msg := { _type := SampleKind.MONITOR_VM, _payload := [104] }, out := [1, 2, 3] }
      []).2.1 (by decide),
   (C15_write_to_pure sampleEnv
      { msg := { _type := SampleKind.MONITOR_VM, _payload := [104] }, out := [1, 2, 3] }
      []).2.2.1 (by decide)⟩

/-- C16 (descriptor write is fire-and-forget). For every behaviour of `::write`:
    `write_to(int fd)` returns -1 exactly when the in-memory `write_to` returns -1, and
    returns the same status in every case. When serialization succeeds, the only effect on
    the world is the one call `::write(fd, out, out.size())` on the whole frame `out`, and
    the result is 0 whatever the call reports: a world that records calls holds exactly
    one more call afterwards. -/
theorem C16_fire_and_forget {E W : Type} (env : Env E) (m : Message E) (fd : Int)
    (sys_write : W → Int → Bytes → Nat → Int × W) (w : W)
    (report : Int → Bytes → Nat → Int) (calls : List (Int × Bytes × Nat)) :
    ((write_to_fd env sys_write m fd w).1 = -1 ↔ (write_to env m []).1 = -1) ∧
    (write_to_fd env sys_write m fd w).1 = (write_to env m []).1 ∧
    ((write_to env m []).1 = -1 → write_to_fd env sys_write m fd w = (-1, w)) ∧
    ((write_to env m []).1 ≠ -1 →
      write_to_fd env sys_write m fd w =
        (0, (sys_write w fd (write_to env m []).2 (write_to env m []).2.length).2) ∧
      write_to_fd env (recording_write report) m fd calls =
        (0, calls ++ [(fd, (write_to env m []).2, (write_to env m []).2.length)])) := by
  rcases write_to_status env m [] with h | h
  · have hne : ¬ (write_to env m []).1 = -1 := by
      rw [h]
      decide
    simp [write_to_fd, recording_write, h, hne]
  · simp [write_to_fd, h]

/-- C16 at a concrete input: a payload of one NUL byte and a `::write` that reports an
    error; one call with all 18 bytes of the frame is made and 0 is returned. -/
theorem C16_fire_and_forget_witness :
    write_to_fd sampleEnv (recording_write (fun _ _ _ => -1))
        { _type := SampleKind.MONITOR_HOST, _payload := [0] } 3 [] =
      (0, [(3, ascii "MONITOR_HOST abaa\n", 18)]) :=
  ((C16_fire_and_forget sampleEnv { _type := SampleKind.MONITOR_HOST, _payload := [0] } 3
    (recording_write (fun _ _ _ => -1)) [] (fun _ _ _ => -1) []).2.2.2 (by decide)).2

/-- C17 (lenient separators and terminator). For non-empty whitespace-free `t1`, `t2`,
    whitespace `w0` and `w2` (possibly empty) and non-empty whitespace `w1`, parsing
    `w0 ++ t1 ++ w1 ++ t2 ++ w2` into a message returns the same status as parsing
    `t1 ++ " " ++ t2 ++ "\n"` into it, and when that status is 0 leaves the same kind and
    payload. Each of the two inputs is any reference that reads as the given string. -/
theorem C17_lenient_separators {E : Type} [DecidableEq E] (env : Env E) (m : Message E)
    (lenient canonical : Input) (w0 t1 w1 t2 w2 : Bytes)
    (ht1 : t1 ≠ []) (hts1 : ∀ b ∈ t1, isspace b = false)
    (ht2 : t2 ≠ []) (hts2 : ∀ b ∈ t2, isspace b = false)
    (hw0 : ∀ b ∈ w0, isspace b = true)
    (hw1 : w1 ≠ []) (hws1 : ∀ b ∈ w1, isspace b = true)
    (hw2 : ∀ b ∈ w2, isspace b = true)
    (hlenient : lenient.read m = w0 ++ t1 ++ w1 ++ t2 ++ w2)
    (hcanonical : canonical.read m = t1 ++ [SP] ++ t2 ++ [NL]) :
    (parse_from env lenient m).1 = (parse_from env canonical m).1 ∧
    ((parse_from env lenient m).1 = 0 →
      (parse_from env lenient m).2 = (parse_from env canonical m).2) := by
  have ha := tokens_lenient w0 t1 w1 t2 w2 ht1 hts1 ht2 hts2 hw0 hw1 hws1 hw2
  have hb := tokens_frame t1 t2 ht1 hts1 ht2 hts2
  rw [parse_from_eq_parse_tokens, parse_from_eq_parse_tokens]
  unfold parse_tokens
  rw [hlenient, hcanonical, ha, hb]
  by_cases hk : env._from_str (c_str t1) = env.UNDEFINED
  · simp [hk, parse_error]
  · by_cases hr : (env.zlib_decompress (env.base64_decode t2 []) m._payload).1 = -1
    · simp [hk, hr, parse_error]
    · simp [hk, hr]

/-- C17 at a concrete input: leading tab, carriage return and newline between the fields,
    no terminating newline. -/
theorem C17_lenient_separators_witness :
    (parse_from sampleEnv (Input.str (ascii "\tMONITOR_VM \r\n abgi"))
        { _type := SampleKind.MONITOR_HOST, _payload := [9] }).1 = 0 ∧
    (parse_from sampleEnv (Input.str (ascii "\tMONITOR_VM \r\n abgi"))
        { _type := SampleKind.MONITOR_HOST, _payload := [9] }).2 =
      (parse_from sampleEnv (Input.str (ascii "MONITOR_VM abgi\n"))
        { _type := SampleKind.MONITOR_HOST, _payload := [9] }).2 :=
  ⟨by decide,
   (C17_lenient_separators sampleEnv { _type := SampleKind.MONITOR_HOST, _payload := [9] }
      (Input.str (ascii "\tMONITOR_VM \r\n abgi")) (Input.str (ascii "MONITOR_VM abgi\n"))
      (ascii "\t") (ascii "MONITOR_VM") (ascii " \r\n ") (ascii "abgi") []
      (by decide) (by decide) (by decide) (by decide) (by decide) (by decide) (by decide)
      (by decide) (by decide) (by decide)).2 (by decide)⟩

/-- C18 (kind resolution stops at the first NUL byte). For a non-empty kind name `n`
    without whitespace or NUL that the kind mapping resolves to a kind other than
    `UNDEFINED`, any whitespace-free `s`, and a non-empty whitespace-free payload token `t`
    whose decoding the decompressor accepts, parsing `n ++ [0] ++ s ++ " " ++ t ++ "\n"`
    returns 0 with the kind of `n` and the decompressed payload, exactly as parsing
    `n ++ " " ++ t ++ "\n"` does. Each of the two inputs is any reference that reads as the
    given string. -/
theorem C18_kind_name_cut_at_nul {E : Type} [DecidableEq E] (env : Env E) (m : Message E)
    (with_nul plain : Input) (n s t : Bytes)
    (hn : n ≠ []) (hn_ok : ∀ b ∈ n, isspace b = false ∧ b ≠ 0)
    (hkind : env._from_str n ≠ env.UNDEFINED)
    (hs : ∀ b ∈ s, isspace b = false)
    (ht : t ≠ []) (hts : ∀ b ∈ t, isspace b = false)
    (haccept : (env.zlib_decompress (env.base64_decode t []) m._payload).1 ≠ -1)
    (hwith_nul : with_nul.read m = n ++ [0] ++ s ++ [SP] ++ t ++ [NL])
    (hplain : plain.read m = n ++ [SP] ++ t ++ [NL]) :
    parse_from env with_nul m =
      (0, { _type := env._from_str n,
            _payload := (env.zlib_decompress (env.base64_decode t []) m._payload).2 }) ∧
    parse_from env with_nul m = parse_from env plain m := by
  have hfirst : ∀ b ∈ n ++ [0] ++ s, isspace b = false := by
    intro b hb
    simp only [List.mem_append, List.mem_singleton] at hb
    rcases hb with (hb | hb) | hb
    · exact (hn_ok b hb).1
    · rw [hb]; decide
    · exact hs b hb
  have hne : n ++ [0] ++ s ≠ [] := by simp [hn]
  have ha := tokens_frame (n ++ [0] ++ s) t hne hfirst ht hts
  have hb := tokens_frame n t hn (fun b hb => (hn_ok b hb).1) ht hts
  have hc1 := c_str_nul_append n s (fun b hb => (hn_ok b hb).2)
  have hc2 := c_str_of_no_nul n (fun b hb => (hn_ok b hb).2)
  have h1 : parse_from env with_nul m =
      (0, { _type := env._from_str n,
            _payload := (env.zlib_decompress (env.base64_decode t []) m._payload).2 }) := by
    rw [parse_from_eq_parse_tokens]
    unfold parse_tokens
    rw [hwith_nul, ha]
    simp only [hc1]
    simp [hkind, haccept]
  have h2 : parse_from env plain m =
      (0, { _type := env._from_str n,
            _payload := (env.zlib_decompress (env.base64_decode t []) m._payload).2 }) := by
    rw [parse_from_eq_parse_tokens]
    unfold parse_tokens
    rw [hplain, hb]
    simp only [hc2]
    simp [hkind, haccept]
  exact ⟨h1, by rw [h1, h2]⟩

/-- C18 at a concrete input: `MONITOR_VM`, a NUL byte and `junk` as first token. -/
theorem C18_kind_name_cut_at_nul_witness :
    parse_from sampleEnv (Input.str (ascii "MONITOR_VM" ++ [0] ++ ascii "junk" ++ [SP] ++
        ascii "abgi" ++ [NL])) { _type := SampleKind.MONITOR_HOST, _payload := [9] } =
      (0, { _type := SampleKind.MONITOR_VM, _payload := [104] }) ∧
    sampleEnv._from_str (ascii "MONITOR_VM" ++ [0] ++ ascii "junk") = SampleKind.UNDEFINED :=
  ⟨(C18_kind_name_cut_at_nul sampleEnv { _type := SampleKind.MONITOR_HOST, _payload := [9] }
      (Input.str (ascii "MONITOR_VM" ++ [0] ++ ascii "junk" ++ [SP] ++ ascii "abgi" ++ [NL]))
      (Input.str (ascii "MONITOR_VM" ++ [SP] ++ ascii "abgi" ++ [NL]))
      (ascii "MONITOR_VM") (ascii "junk") (ascii "abgi")
      (by decide) (by decide) (by decide) (by decide) (by decide) (by decide) (by decide)
      rfl rfl).1,
   by decide⟩

end Monitor
